import Mathlib

/-!
A shallow embedding of `enumeration.py` (classes `Enum`, `EnumItem` and the
conversion hooks of `EnumField`), together with theorems about the embedded
operations.

Python objects that may or may not be strings (the raw `value` and `label`
arguments of `Enum.__init__`) are modelled by `PyVal`.  Python `assert`
failures and raised exceptions are modelled by `Except EnumError`.  Mutation
of an `Enum` (in `set_ui_labels`) is modelled by explicit state passing: the
operation returns the outcome together with the state of the object when the
operation finishes, normally or with an exception.
-/

/-- A Python object passed as a value or label in an enum declaration:
either a string or some non-string object (identified by a tag). -/
inductive PyVal where
  | str (s : String)
  | obj (tag : Nat)
deriving DecidableEq

/-- The exceptions raised by the code: `AssertionError`, `ValueError`
(raised by unpacking `zip(*items)` when `items` is empty), `AttributeError`
(from `Enum.__getattr__`), `KeyError` (dictionary lookup misses) and
`NonExistingEnumItemError` (which carries the offending value). -/
inductive EnumError where
  | assertionError (msg : String)
  | valueError (msg : String)
  | attributeError (label : String)
  | keyError (key : String)
  | nonExistingEnumItemError (value : String)
deriving DecidableEq

/-- Result of a Python rich comparison method: either an actual boolean or
the `NotImplemented` sentinel. -/
inductive PyCompared where
  | result (b : Bool)
  | notImplemented
deriving DecidableEq

/-- The six comparison operators passed to `EnumItem._compare`
(`operator.eq`, `ne`, `lt`, `le`, `gt`, `ge`). -/
inductive CmpOp where
  | eq
  | ne
  | lt
  | le
  | gt
  | ge
deriving DecidableEq

/-- Apply a comparison operator to the two item indices (natural numbers),
as `operator(self._item_index, other_item._item_index)` does. -/
def CmpOp.apply : CmpOp → Nat → Nat → Bool
  | .eq, a, b => decide (a = b)
  | .ne, a, b => decide (a ≠ b)
  | .lt, a, b => decide (a < b)
  | .le, a, b => decide (a ≤ b)
  | .gt, a, b => decide (b < a)
  | .ge, a, b => decide (b ≤ a)

/-- `isinstance(v, str)`. -/
def pyIsStr : PyVal → Bool
  | .str _ => true
  | .obj _ => false

/-- The string payload of a `PyVal`.  Only used on values already checked
with `pyIsStr`; the default for non-strings is never reached on a path where
construction succeeds. -/
def asStr : PyVal → String
  | .str s => s
  | .obj _ => ""

/-- Class `EnumItem`: the stored attributes `enum_values` (the tuple of all
the values of the parent enum, a tuple of strings on every reachable
instance), `item_value`, `_item_index` and `_item_ui_label`. -/
structure EnumItem where
  enum_values : List String
  item_value : String
  item_index : Nat
  item_ui_label : Option String
deriving DecidableEq

/-- `EnumItem.__init__`: asserts that `item_value` is contained in
`enum_values` and stores the index of `item_value` in `enum_values`. -/
def EnumItem.make (item_value : String) (enum_values : List String) :
    Except EnumError EnumItem :=
  if item_value ∈ enum_values then
    .ok { enum_values := enum_values, item_value := item_value,
          item_index := enum_values.indexOf item_value, item_ui_label := none }
  else
    .error (.assertionError "value is not contained in the Enum values")

/-- `EnumItem._compare`: both operands here are `EnumItem`s (the
`isinstance` guard of the source handles non-`EnumItem` operands; the typed
embedding only ever compares `EnumItem`s).  Python compares the
`enum_values` tuples by `!=`, which is content inequality on tuples. -/
def EnumItem.compareWith (self other_item : EnumItem) (op : CmpOp) : PyCompared :=
  if self.enum_values ≠ other_item.enum_values then
    .notImplemented
  else
    .result (op.apply self.item_index other_item.item_index)

/-- The boolean Python obtains from `a == b` on two `EnumItem`s: the result
of `__eq__` when it is a boolean, and the identity fallback (two distinct
objects) when `__eq__` answers `NotImplemented` both ways. -/
def EnumItem.py_eq (a b : EnumItem) : Bool :=
  match a.compareWith b CmpOp.eq with
  | .result r => r
  | .notImplemented => false

/-- `EnumItem.previous_values`: the slice `enum_values[:_item_index]`. -/
def EnumItem.previous_values (self : EnumItem) : List String :=
  self.enum_values.take self.item_index

/-- `EnumItem.previous_values_with_self`: `enum_values[:_item_index + 1]`. -/
def EnumItem.previous_values_with_self (self : EnumItem) : List String :=
  self.enum_values.take (self.item_index + 1)

/-- `EnumItem.subsequent_values`: `enum_values[_item_index + 1:]`. -/
def EnumItem.subsequent_values (self : EnumItem) : List String :=
  self.enum_values.drop (self.item_index + 1)

/-- `EnumItem.subsequent_values_with_self`: `enum_values[_item_index:]`. -/
def EnumItem.subsequent_values_with_self (self : EnumItem) : List String :=
  self.enum_values.drop self.item_index

/-- `EnumItem.set_ui_label`: assigns the display label unconditionally. -/
def EnumItem.set_ui_label (self : EnumItem) (label : String) : EnumItem :=
  { self with item_ui_label := some label }

/-- `EnumItem.get_ui_label`: asserts that the label has been set. -/
def EnumItem.get_ui_label (self : EnumItem) : Except EnumError String :=
  match self.item_ui_label with
  | some l => .ok l
  | none => .error (.assertionError "The UI label must be set before retrieving it")

/-- Class `Enum`: the ordered dictionary `_items` mapping each label to its
`EnumItem` (insertion order preserved, modelled as an association list) and
the `has_ui_labels` flag. -/
structure Enum where
  items : List (String × EnumItem)
  has_ui_labels : Bool
deriving DecidableEq

/-- The loop of `Enum.__init__` building `_items`: for each `(value, label)`
pair, assert that value and label are strings (in that order) and bind
`label` to `EnumItem(value, values)`.  Duplicate labels are excluded by the
uniqueness assert before this loop runs, so consing (instead of
dictionary overwrite) is faithful on every reachable path. -/
def Enum.buildItems (pairs : List (PyVal × PyVal)) (svalues : List String) :
    Except EnumError (List (String × EnumItem)) :=
  match pairs with
  | [] => .ok []
  | (value, label) :: rest =>
    if pyIsStr value then
      if pyIsStr label then
        match EnumItem.make (asStr value) svalues with
        | .error e => .error e
        | .ok it =>
          match Enum.buildItems rest svalues with
          | .error e => .error e
          | .ok its => .ok ((asStr label, it) :: its)
      else
        .error (.assertionError "Label must be a string")
    else
      .error (.assertionError "Value must be a string")

/-- `Enum.__init__`: `values, labels = zip(*items)` (a `ValueError` when
`items` is empty), the two uniqueness asserts (`set(...)` cardinality,
labels checked first), then the item-building loop, and finally the
assignment `self.has_ui_labels = False`.  That last assignment goes
through the class's own `__setattr__`, whose assert (`_items` is in
`__dict__` by then) rejects any name that is a key of `_items`: a
declaration whose label is literally the string `has_ui_labels` therefore
raises `AssertionError` instead of completing.  On every successful path
all values are strings, so passing `values.map asStr` to the items is
exact. -/
def Enum.make (pairs : List (PyVal × PyVal)) : Except EnumError Enum :=
  if pairs.length = 0 then
    .error (.valueError "not enough values to unpack")
  else
    let values := pairs.map Prod.fst
    let labels := pairs.map Prod.snd
    if labels.dedup.length ≠ pairs.length then
      .error (.assertionError "The labels must be unique")
    else if values.dedup.length ≠ pairs.length then
      .error (.assertionError "The values must be unique")
    else
      match Enum.buildItems pairs (values.map asStr) with
      | .error e => .error e
      | .ok its =>
        if "has_ui_labels" ∈ its.map Prod.fst then
          .error (.assertionError "Enum items cannot be overridden")
        else
          .ok { items := its, has_ui_labels := false }

/-- The keys of `_items`: the declared labels, in declaration order. -/
def Enum.labels (e : Enum) : List String :=
  e.items.map Prod.fst

/-- `self._items.values()`: the enum items in declaration order. -/
def Enum.enumItems (e : Enum) : List EnumItem :=
  e.items.map Prod.snd

/-- `Enum.__iter__`: yields `enum_item.item_value` for each item of
`_items.values()`, in declaration order. -/
def Enum.iter (e : Enum) : List String :=
  e.enumItems.map EnumItem.item_value

/-- `Enum.__len__`: `len(self._items)`. -/
def Enum.size (e : Enum) : Nat :=
  e.items.length

/-- `value in enum`: with no `__contains__`, Python falls back to
membership over `__iter__`, i.e. membership among the item values. -/
def Enum.containsValue (e : Enum) (v : String) : Bool :=
  decide (v ∈ e.iter)

/-- `Enum.__getattr__`: raises `AttributeError` when `label` is not a key of
`_items`, otherwise returns `_items[label]`. -/
def Enum.getattr (e : Enum) (label : String) : Except EnumError EnumItem :=
  match e.items.lookup label with
  | some it => .ok it
  | none => .error (.attributeError label)

/-- `Enum.__setattr__` after construction (`_items` is in `__dict__`): the
assert rejects any name that is a key of `_items`; every other name is set
as ordinary dynamic state (modelled as plain success). -/
def Enum.setattrCheck (e : Enum) (name : String) : Except EnumError Unit :=
  if name ∈ e.labels then
    .error (.assertionError "Enum items cannot be overridden")
  else
    .ok ()

/-- `Enum.get_items_by_values`: the ordered dictionary mapping each item
value to its item, in declaration order. -/
def Enum.get_items_by_values (e : Enum) : List (String × EnumItem) :=
  e.enumItems.map (fun it => (it.item_value, it))

/-- `Enum.get_item_by_value`: raises `NonExistingEnumItemError(item_value)`
when `item_value not in self`, otherwise looks the item up in
`get_items_by_values()` (the `keyError` branch is unreachable, since the
membership test runs over exactly the keys of that dictionary). -/
def Enum.get_item_by_value (e : Enum) (item_value : String) :
    Except EnumError EnumItem :=
  if e.containsValue item_value then
    match (e.get_items_by_values).lookup item_value with
    | some it => .ok it
    | none => .error (.keyError item_value)
  else
    .error (.nonExistingEnumItemError item_value)

/-- Python set equality of two collections of `EnumItem`s, with `==` given
by `EnumItem.py_eq` (hash collisions resolved by equality): each element of
one has an equal element in the other, both ways. -/
def pySetEq (xs ys : List EnumItem) : Bool :=
  xs.all (fun a => ys.any (fun b => a.py_eq b)) &&
    ys.all (fun b => xs.any (fun a => a.py_eq b))

/-- Python dictionary lookup `ui_labels[key]` on a dictionary keyed by
`EnumItem`s: the entry whose key compares equal (`py_eq`) to `key`. -/
def pyDictGet (key : EnumItem) (m : List (EnumItem × String)) : Option String :=
  (m.find? (fun p => p.1.py_eq key)).map Prod.snd

/-- `Enum.set_ui_labels`: asserts that the set of items equals the set of
keys of `ui_labels`, then assigns each item its label from the dictionary
and sets `has_ui_labels`.  Returns the outcome together with the state of
the enum when the call finishes; when the assert fires, no label has been
assigned yet and the state is unchanged.  (The `none` branch of the lookup
inside the loop is unreachable: the set-equality guard supplies a matching
key for every item; Python would raise `KeyError` there.) -/
def Enum.set_ui_labels (e : Enum) (ui_labels : List (EnumItem × String)) :
    Except EnumError Unit × Enum :=
  if pySetEq e.enumItems (ui_labels.map Prod.fst) then
    (.ok (),
     { items := e.items.map (fun p =>
         (p.1, match pyDictGet p.2 ui_labels with
               | some l => p.2.set_ui_label l
               | none => p.2)),
       has_ui_labels := true })
  else
    (.error (.assertionError "All the enum item values must have a UI label."), e)

/-- A stored scalar at the `EnumField` conversion boundary: `None`, a
string, or an `EnumItem`. -/
inductive StoredVal where
  | nullVal
  | strVal (s : String)
  | itemVal (it : EnumItem)
deriving DecidableEq

/-- The state of an `EnumField` needed by the conversion hooks:
`self.enum_items_by_values`, captured from the enum at field construction
time. -/
structure EnumField where
  enum_items_by_values : List (String × EnumItem)
deriving DecidableEq

/-- The `EnumField.__init__` assignment
`self.enum_items_by_values = enum.get_items_by_values()`. -/
def EnumField.make (enum : Enum) : EnumField :=
  { enum_items_by_values := enum.get_items_by_values }

/-- `EnumField.to_python`: an `EnumItem` is asserted to carry exactly the
value tuple of this enum and passed through; `None` passes through; any
other value is asserted to be a key of `enum_items_by_values` and resolved
to its item. -/
def EnumField.to_python (f : EnumField) (value : StoredVal) :
    Except EnumError StoredVal :=
  match value with
  | .itemVal it =>
    if it.enum_values = f.enum_items_by_values.map Prod.fst then
      .ok (.itemVal it)
    else
      .error (.assertionError "Enum item does not belong to this enum")
  | .nullVal => .ok .nullVal
  | .strVal s =>
    match f.enum_items_by_values.lookup s with
    | some it => .ok (.itemVal it)
    | none => .error (.assertionError "must be a value in the enum")

/-- `EnumField.from_db_value`: delegates to `to_python`. -/
def EnumField.from_db_value (f : EnumField) (value : StoredVal) :
    Except EnumError StoredVal :=
  f.to_python value

/-- `EnumField.get_prep_value`: `None` passes through; any other value is
converted with `str(...)` (`str` of an `EnumItem` is its `item_value`,
`str` of a string is itself). -/
def EnumField.get_prep_value (value : StoredVal) : StoredVal :=
  match value with
  | .nullVal => .nullVal
  | .strVal s => .strVal s
  | .itemVal it => .strVal it.item_value

/-- A default `EnumItem`, used only as the out-of-range default of
`List.getD` in theorem statements. -/
def dummyItem : EnumItem :=
  { enum_values := [], item_value := "", item_index := 0, item_ui_label := none }

/-- Whether an `Except`-modelled operation finished without an exception. -/
def exceptOk {ε α : Type} (x : Except ε α) : Bool :=
  match x with
  | .ok _ => true
  | .error _ => false

/-- Decidable equality for `Except`, used to evaluate the embedded
operations on concrete inputs. -/
instance {ε α : Type} [DecidableEq ε] [DecidableEq α] : DecidableEq (Except ε α) :=
  fun a b =>
  match a, b with
  | .ok x, .ok y =>
    if h : x = y then .isTrue (by rw [h])
    else .isFalse (by intro hc; injection hc with h2; exact h h2)
  | .error x, .error y =>
    if h : x = y then .isTrue (by rw [h])
    else .isFalse (by intro hc; injection hc with h2; exact h h2)
  | .ok x, .error y => .isFalse (by intro hc; exact Except.noConfusion hc)
  | .error x, .ok y => .isFalse (by intro hc; exact Except.noConfusion hc)

/-- The `_items` entry built for a declaration pair by a successful
`Enum.__init__` over the full value list `svalues` (a formal shape
descriptor used to state inversion lemmas about `Enum.make`). -/
def mkRawItem (svalues : List String) (p : PyVal × PyVal) : String × EnumItem :=
  (asStr p.2,
   { enum_values := svalues, item_value := asStr p.1,
     item_index := svalues.indexOf (asStr p.1), item_ui_label := none })

/-- The ages-of-man declaration used by the tests of the repository. -/
def agesPairs : List (PyVal × PyVal) :=
  [(.str "baby", .str "BABY"), (.str "toddler", .str "TODDLER"),
   (.str "child", .str "CHILD"), (.str "teenager", .str "TEENAGER"),
   (.str "adult", .str "ADULT"), (.str "elderly", .str "ELDERLY")]

/-- The enum built from `agesPairs` (construction succeeds, as the proofs
show; the fallback is never reached). -/
def agesEnum : Enum :=
  match Enum.make agesPairs with
  | .ok e => e
  | .error _ => { items := [], has_ui_labels := false }

/-- A second, independently declared enumeration with exactly the same
value strings as `agesPairs` but different labels. -/
def agesPairsB : List (PyVal × PyVal) :=
  [(.str "baby", .str "INFANT"), (.str "toddler", .str "TOT"),
   (.str "child", .str "KID"), (.str "teenager", .str "TEEN"),
   (.str "adult", .str "GROWNUP"), (.str "elderly", .str "OLD")]

/-- The enum built from `agesPairsB`. -/
def agesEnumB : Enum :=
  match Enum.make agesPairsB with
  | .ok e => e
  | .error _ => { items := [], has_ui_labels := false }

/-- An enumeration whose value sequence differs from `agesPairs`. -/
def animalPairs : List (PyVal × PyVal) :=
  [(.str "Sheep", .str "SHEEP"), (.str "Cow", .str "COW")]

/-- The enum built from `animalPairs`. -/
def animalEnum : Enum :=
  match Enum.make animalPairs with
  | .ok e => e
  | .error _ => { items := [], has_ui_labels := false }

/-- A UI-label dictionary covering every member of `agesEnum`. -/
def agesUiFull : List (EnumItem × String) :=
  agesEnum.enumItems.map (fun it => (it, it.item_value ++ " label"))

/-- A UI-label dictionary covering only the first of the six members of
`agesEnum`. -/
def agesUiOne : List (EnumItem × String) :=
  [(agesEnum.enumItems.getD 0 dummyItem, "Baby")]

/-! ### General lemmas about the embedding -/

theorem dedup_len_nodup {α : Type} [DecidableEq α] {l : List α}
    (h : l.dedup.length = l.length) : l.Nodup := by
  have hs := (List.dedup_sublist l).eq_of_length h
  rw [← hs]
  exact List.nodup_dedup l

theorem nodup_dedup_len {α : Type} [DecidableEq α] {l : List α}
    (h : l.Nodup) : l.dedup.length = l.length := by
  rw [List.dedup_eq_self.mpr h]

theorem strs_nodup {vals : List PyVal}
    (hstr : ∀ v ∈ vals, pyIsStr v = true) (h : vals.Nodup) :
    (vals.map asStr).Nodup := by
  refine h.map_on ?_
  intro x hx y hy hxy
  have hxs := hstr x hx
  have hys := hstr y hy
  cases x with
  | obj t => simp [pyIsStr] at hxs
  | str s =>
    cases y with
    | obj t => simp [pyIsStr] at hys
    | str u => simp only [asStr] at hxy; rw [hxy]

theorem lookup_of_mem {β : Type} (l : List (String × β)) (k : String) (v : β)
    (hmem : (k, v) ∈ l) (hnd : (l.map Prod.fst).Nodup) : l.lookup k = some v := by
  induction l with
  | nil => cases hmem
  | cons head rest ih =>
    rcases head with ⟨a, b⟩
    simp only [List.map_cons, List.nodup_cons] at hnd
    rcases List.mem_cons.mp hmem with heq | hmem2
    · rw [show k = a from congrArg Prod.fst heq]
      simp [List.lookup, show b = v from (congrArg Prod.snd heq).symm]
    · have hk : (k == a) = false := by
        refine beq_eq_false_iff_ne.mpr ?_
        intro hka
        subst hka
        exact hnd.1 (List.mem_map_of_mem Prod.fst hmem2)
      simp [List.lookup, hk]
      exact ih hmem2 hnd.2

theorem lookup_eq_none_of {β : Type} (l : List (String × β)) (k : String)
    (h : k ∉ l.map Prod.fst) : l.lookup k = none := by
  induction l with
  | nil => rfl
  | cons head rest ih =>
    rcases head with ⟨a, b⟩
    simp only [List.map_cons, List.mem_cons, not_or] at h
    have hk : (k == a) = false := beq_eq_false_iff_ne.mpr h.1
    simp [List.lookup, hk]
    intro x y hmemr hka
    subst hka
    exact h.2 (List.mem_map_of_mem Prod.fst hmemr)

theorem buildItems_ok_of (pairs : List (PyVal × PyVal)) (svalues : List String)
    (hyp : ∀ p ∈ pairs,
      pyIsStr p.1 = true ∧ pyIsStr p.2 = true ∧ asStr p.1 ∈ svalues) :
    Enum.buildItems pairs svalues = .ok (pairs.map (mkRawItem svalues)) := by
  induction pairs with
  | nil => rfl
  | cons head rest ih =>
    obtain ⟨h1, h2, h3⟩ := hyp head (List.mem_cons_self head rest)
    have ihh := ih (fun p hp => hyp p (List.mem_cons_of_mem head hp))
    rcases head with ⟨value, label⟩
    simp only at h1 h2 h3
    simp only [Enum.buildItems, h1, h2, if_true, EnumItem.make, if_pos h3, ihh,
      List.map_cons, mkRawItem]

theorem buildItems_ok_inv (pairs : List (PyVal × PyVal)) (svalues : List String)
    (its : List (String × EnumItem)) (h : Enum.buildItems pairs svalues = .ok its) :
    (∀ p ∈ pairs,
      pyIsStr p.1 = true ∧ pyIsStr p.2 = true ∧ asStr p.1 ∈ svalues) ∧
      its = pairs.map (mkRawItem svalues) := by
  induction pairs generalizing its with
  | nil =>
    simp only [Enum.buildItems] at h
    cases h
    exact ⟨fun p hp => absurd hp (List.not_mem_nil p), rfl⟩
  | cons head rest ih =>
    rcases head with ⟨value, label⟩
    by_cases h1 : pyIsStr value = true
    · by_cases h2 : pyIsStr label = true
      · simp only [Enum.buildItems, h1, h2, if_true] at h
        by_cases h3 : asStr value ∈ svalues
        · rw [EnumItem.make, if_pos h3] at h
          cases hrest : Enum.buildItems rest svalues with
          | error e => rw [hrest] at h; cases h
          | ok its2 =>
            rw [hrest] at h
            cases h
            obtain ⟨ha, hb⟩ := ih its2 hrest
            refine ⟨?_, by simp [mkRawItem, hb]⟩
            intro p hp
            rcases List.mem_cons.mp hp with hp | hp
            · subst hp; exact ⟨h1, h2, h3⟩
            · exact ha p hp
        · rw [EnumItem.make, if_neg h3] at h; cases h
      · simp [Enum.buildItems, h1, h2] at h
    · simp [Enum.buildItems, h1] at h

theorem map_fst_mkRawItem (pairs : List (PyVal × PyVal)) (svalues : List String) :
    (pairs.map (mkRawItem svalues)).map Prod.fst
      = (pairs.map Prod.snd).map asStr := by
  simp only [List.map_map]
  rfl

theorem make_ok_of (pairs : List (PyVal × PyVal)) (hne : pairs ≠ [])
    (hstr : ∀ p ∈ pairs, pyIsStr p.1 = true ∧ pyIsStr p.2 = true)
    (hv : (pairs.map Prod.fst).Nodup) (hl : (pairs.map Prod.snd).Nodup)
    (hres : "has_ui_labels" ∉ (pairs.map Prod.snd).map asStr) :
    Enum.make pairs =
      .ok { items := pairs.map (mkRawItem ((pairs.map Prod.fst).map asStr)),
            has_ui_labels := false } := by
  have hlen : ¬ pairs.length = 0 := by
    simpa [List.length_eq_zero] using hne
  have hl2 : ¬ (pairs.map Prod.snd).dedup.length ≠ pairs.length := by
    rw [nodup_dedup_len hl, List.length_map]
    exact fun hc => hc rfl
  have hv2 : ¬ (pairs.map Prod.fst).dedup.length ≠ pairs.length := by
    rw [nodup_dedup_len hv, List.length_map]
    exact fun hc => hc rfl
  have hres2 : "has_ui_labels" ∉
      (pairs.map (mkRawItem ((pairs.map Prod.fst).map asStr))).map Prod.fst := by
    rw [map_fst_mkRawItem]
    exact hres
  have hb := buildItems_ok_of pairs ((pairs.map Prod.fst).map asStr) ?_
  · rw [Enum.make, if_neg hlen]
    simp only
    rw [if_neg hl2, if_neg hv2, hb]
    simp only [if_neg hres2]
  · intro p hp
    refine ⟨(hstr p hp).1, (hstr p hp).2, ?_⟩
    exact List.mem_map_of_mem asStr (List.mem_map_of_mem Prod.fst hp)

theorem make_ok_inv (pairs : List (PyVal × PyVal)) (e : Enum)
    (h : Enum.make pairs = .ok e) :
    pairs ≠ [] ∧
      (∀ p ∈ pairs, pyIsStr p.1 = true ∧ pyIsStr p.2 = true) ∧
      (pairs.map Prod.fst).Nodup ∧ (pairs.map Prod.snd).Nodup ∧
      "has_ui_labels" ∉ (pairs.map Prod.snd).map asStr ∧
      e = { items := pairs.map (mkRawItem ((pairs.map Prod.fst).map asStr)),
            has_ui_labels := false } := by
  by_cases hlen : pairs.length = 0
  · rw [Enum.make, if_pos hlen] at h; cases h
  rw [Enum.make, if_neg hlen] at h
  simp only at h
  by_cases hl2 : (pairs.map Prod.snd).dedup.length ≠ pairs.length
  · rw [if_pos hl2] at h; cases h
  rw [if_neg hl2] at h
  by_cases hv2 : (pairs.map Prod.fst).dedup.length ≠ pairs.length
  · rw [if_pos hv2] at h; cases h
  rw [if_neg hv2] at h
  cases hb : Enum.buildItems pairs ((pairs.map Prod.fst).map asStr) with
  | error err => rw [hb] at h; cases h
  | ok its =>
    rw [hb] at h
    have h2 : (if "has_ui_labels" ∈ its.map Prod.fst then
        (Except.error (EnumError.assertionError "Enum items cannot be overridden")
          : Except EnumError Enum)
      else .ok { items := its, has_ui_labels := false }) = .ok e := h
    clear h
    by_cases hres : "has_ui_labels" ∈ its.map Prod.fst
    · rw [if_pos hres] at h2; cases h2
    rw [if_neg hres] at h2
    cases h2
    obtain ⟨ha, hshape⟩ := buildItems_ok_inv pairs _ its hb
    have hres2 : "has_ui_labels" ∉ (pairs.map Prod.snd).map asStr := by
      rw [← map_fst_mkRawItem pairs ((pairs.map Prod.fst).map asStr), ← hshape]
      exact hres
    refine ⟨by simpa [List.length_eq_zero] using hlen, fun p hp => ⟨(ha p hp).1, (ha p hp).2.1⟩,
      ?_, ?_, hres2, by rw [hshape]⟩
    · refine dedup_len_nodup ?_
      rw [List.length_map]
      exact not_ne_iff.mp hv2
    · refine dedup_len_nodup ?_
      rw [List.length_map]
      exact not_ne_iff.mp hl2

theorem getD_at {α : Type} (l : List α) (d : α) (i : Nat) (hi : i < l.length) :
    l.getD i d = l[i] := by
  rw [List.getD_eq_getElem?_getD, List.getElem?_eq_getElem hi]
  rfl

theorem values_str (pairs : List (PyVal × PyVal))
    (hstr : ∀ p ∈ pairs, pyIsStr p.1 = true ∧ pyIsStr p.2 = true) :
    ∀ v ∈ pairs.map Prod.fst, pyIsStr v = true := by
  intro v hv
  obtain ⟨p, hp, rfl⟩ := List.mem_map.mp hv
  exact (hstr p hp).1

theorem labels_str (pairs : List (PyVal × PyVal))
    (hstr : ∀ p ∈ pairs, pyIsStr p.1 = true ∧ pyIsStr p.2 = true) :
    ∀ v ∈ pairs.map Prod.snd, pyIsStr v = true := by
  intro v hv
  obtain ⟨p, hp, rfl⟩ := List.mem_map.mp hv
  exact (hstr p hp).2

theorem make_iter (pairs : List (PyVal × PyVal)) (e : Enum)
    (h : Enum.make pairs = .ok e) :
    e.iter = (pairs.map Prod.fst).map asStr := by
  obtain ⟨-, -, -, -, -, he⟩ := make_ok_inv pairs e h
  subst he
  simp only [Enum.iter, Enum.enumItems, List.map_map]
  rfl

theorem make_labels (pairs : List (PyVal × PyVal)) (e : Enum)
    (h : Enum.make pairs = .ok e) :
    e.labels = (pairs.map Prod.snd).map asStr := by
  obtain ⟨-, -, -, -, -, he⟩ := make_ok_inv pairs e h
  subst he
  simp only [Enum.labels, List.map_map]
  rfl

theorem make_iter_nodup (pairs : List (PyVal × PyVal)) (e : Enum)
    (h : Enum.make pairs = .ok e) : e.iter.Nodup := by
  obtain ⟨-, hstr, hv, -, -, -⟩ := make_ok_inv pairs e h
  rw [make_iter pairs e h]
  exact strs_nodup (values_str pairs hstr) hv

theorem make_labels_nodup (pairs : List (PyVal × PyVal)) (e : Enum)
    (h : Enum.make pairs = .ok e) : e.labels.Nodup := by
  obtain ⟨-, hstr, -, hl, -, -⟩ := make_ok_inv pairs e h
  rw [make_labels pairs e h]
  exact strs_nodup (labels_str pairs hstr) hl

theorem make_size (pairs : List (PyVal × PyVal)) (e : Enum)
    (h : Enum.make pairs = .ok e) : e.size = pairs.length := by
  obtain ⟨-, -, -, -, -, he⟩ := make_ok_inv pairs e h
  subst he
  simp [Enum.size]

theorem make_enumItems_length (pairs : List (PyVal × PyVal)) (e : Enum)
    (h : Enum.make pairs = .ok e) : e.enumItems.length = pairs.length := by
  obtain ⟨-, -, -, -, -, he⟩ := make_ok_inv pairs e h
  subst he
  simp [Enum.enumItems]

theorem make_iter_length (pairs : List (PyVal × PyVal)) (e : Enum)
    (h : Enum.make pairs = .ok e) : e.iter.length = pairs.length := by
  rw [make_iter pairs e h]
  simp

theorem make_member (pairs : List (PyVal × PyVal)) (e : Enum)
    (h : Enum.make pairs = .ok e) (i : Nat) (hi : i < e.enumItems.length) :
    e.enumItems.getD i dummyItem =
      { enum_values := e.iter, item_value := e.iter.getD i "",
        item_index := i, item_ui_label := none } := by
  obtain ⟨-, hstr, hv, -, -, he⟩ := make_ok_inv pairs e h
  have hnd : ((pairs.map Prod.fst).map asStr).Nodup :=
    strs_nodup (values_str pairs hstr) hv
  have hiter := make_iter pairs e h
  have hlen := make_enumItems_length pairs e h
  have hilen := make_iter_length pairs e h
  have hi2 : i < e.iter.length := by rw [hilen, ← hlen]; exact hi
  rw [getD_at e.enumItems dummyItem i hi]
  have hip : i < pairs.length := by rw [← hlen]; exact hi
  have hisv : i < ((pairs.map Prod.fst).map asStr).length := by
    simpa using hip
  have henum : e.enumItems = pairs.map
      (fun p => (mkRawItem ((pairs.map Prod.fst).map asStr) p).2) := by
    rw [he]
    simp [Enum.enumItems, List.map_map]
  have hei : e.enumItems[i] =
      (mkRawItem ((pairs.map Prod.fst).map asStr) pairs[i]).2 := by
    have hi3 : i < (pairs.map
        (fun p => (mkRawItem ((pairs.map Prod.fst).map asStr) p).2)).length := by
      simpa using hip
    rw [show e.enumItems[i] = (pairs.map
        (fun p => (mkRawItem ((pairs.map Prod.fst).map asStr) p).2))[i] by congr 1]
    simp
  rw [hei]
  have hsv : ((pairs.map Prod.fst).map asStr)[i] = asStr pairs[i].1 := by
    simp
  have hidx : ((pairs.map Prod.fst).map asStr).indexOf (asStr pairs[i].1) = i := by
    rw [← hsv]
    exact List.indexOf_getElem hnd i hisv
  simp only [mkRawItem]
  rw [hiter, hidx]
  congr 1
  rw [getD_at _ "" i hisv]
  exact hsv.symm

theorem keys_get_items_by_values (e : Enum) :
    e.get_items_by_values.map Prod.fst = e.iter := by
  simp only [Enum.get_items_by_values, Enum.iter, List.map_map]
  rfl

theorem lookup_item_by_value (pairs : List (PyVal × PyVal)) (e : Enum)
    (h : Enum.make pairs = .ok e) (m : EnumItem) (hm : m ∈ e.enumItems) :
    e.get_items_by_values.lookup m.item_value = some m := by
  refine lookup_of_mem _ _ _ ?_ ?_
  · exact List.mem_map.mpr ⟨m, hm, rfl⟩
  · rw [keys_get_items_by_values]
    exact make_iter_nodup pairs e h

/-! ### Claim theorems -/

/-- C1 counterexample: two enumerations constructed independently from
declarations with exactly the same value strings (`agesPairs` and
`agesPairsB`, which differ in their labels) produce members whose
comparisons yield actual booleans, not the neutral `NotImplemented`:
`_compare` tests the `enum_values` tuples with `!=`, which is content
comparison, so identical value sequences make the members comparable. -/
theorem C1_cross_enum_counterexample :
    Enum.make agesPairs = .ok agesEnum ∧
    Enum.make agesPairsB = .ok agesEnumB ∧
    decide (agesEnum.labels = agesEnumB.labels) = false ∧
    (agesEnum.enumItems.getD 0 dummyItem).compareWith
      (agesEnumB.enumItems.getD 1 dummyItem) CmpOp.lt = .result true ∧
    (agesEnum.enumItems.getD 0 dummyItem).compareWith
      (agesEnumB.enumItems.getD 0 dummyItem) CmpOp.eq = .result true := by
  refine ⟨by decide, by decide, by decide, by decide, by decide⟩

/-- C1 (amended): comparing a member against a member of an enumeration
whose declared value sequence differs (as a sequence of strings) yields the
neutral non-comparable result, for every operator; when the two
enumerations declare exactly the same value sequence, the comparison
instead yields the boolean obtained by applying the operator to the two
ordinal indices. -/
theorem C1_cross_enum_comparison (a b c d : EnumItem) (op : CmpOp)
    (hab : a.enum_values ≠ b.enum_values) (hcd : c.enum_values = d.enum_values) :
    a.compareWith b op = .notImplemented ∧
    c.compareWith d op = .result (op.apply c.item_index d.item_index) := by
  constructor
  · rw [EnumItem.compareWith, if_pos hab]
  · rw [EnumItem.compareWith, if_neg (by intro hc; exact hc hcd)]

/-- Witness for C1 (amended): a member of the ages enumeration against a
member of the animals enumeration (different value sequences), and against
a member of the second ages enumeration (identical value sequences). -/
theorem C1_cross_enum_comparison_witness :
    (agesEnum.enumItems.getD 0 dummyItem).enum_values ≠
      (animalEnum.enumItems.getD 0 dummyItem).enum_values ∧
    (agesEnum.enumItems.getD 0 dummyItem).enum_values =
      (agesEnumB.enumItems.getD 1 dummyItem).enum_values ∧
    (agesEnum.enumItems.getD 0 dummyItem).compareWith
      (animalEnum.enumItems.getD 0 dummyItem) CmpOp.lt = .notImplemented ∧
    (agesEnum.enumItems.getD 0 dummyItem).compareWith
      (agesEnumB.enumItems.getD 1 dummyItem) CmpOp.lt =
      .result (CmpOp.lt.apply (agesEnum.enumItems.getD 0 dummyItem).item_index
        (agesEnumB.enumItems.getD 1 dummyItem).item_index) := by
  refine ⟨by decide, by decide, ?_, ?_⟩
  · exact (C1_cross_enum_comparison (agesEnum.enumItems.getD 0 dummyItem)
      (animalEnum.enumItems.getD 0 dummyItem)
      (agesEnum.enumItems.getD 0 dummyItem)
      (agesEnumB.enumItems.getD 1 dummyItem) CmpOp.lt (by decide) (by decide)).1
  · exact (C1_cross_enum_comparison (agesEnum.enumItems.getD 0 dummyItem)
      (animalEnum.enumItems.getD 0 dummyItem)
      (agesEnum.enumItems.getD 0 dummyItem)
      (agesEnumB.enumItems.getD 1 dummyItem) CmpOp.lt (by decide) (by decide)).2

/-- C2: for two members of the same validly constructed enumeration, taken
at declaration positions `i` and `j`, every comparison operator answers the
boolean obtained by comparing `i` and `j`; in particular exactly one of
`<`, `==`, `>` holds, and a member declared earlier is strictly less than
every member declared later. -/
theorem C2_same_enum_ordering (pairs : List (PyVal × PyVal)) (e : Enum)
    (h : Enum.make pairs = .ok e) (i j : Nat)
    (hi : i < e.enumItems.length) (hj : j < e.enumItems.length) :
    ((e.enumItems.getD i dummyItem).compareWith
        (e.enumItems.getD j dummyItem) CmpOp.lt = .result (decide (i < j))) ∧
    ((e.enumItems.getD i dummyItem).compareWith
        (e.enumItems.getD j dummyItem) CmpOp.le = .result (decide (i ≤ j))) ∧
    ((e.enumItems.getD i dummyItem).compareWith
        (e.enumItems.getD j dummyItem) CmpOp.eq = .result (decide (i = j))) ∧
    ((e.enumItems.getD i dummyItem).compareWith
        (e.enumItems.getD j dummyItem) CmpOp.ne = .result (decide (i ≠ j))) ∧
    ((e.enumItems.getD i dummyItem).compareWith
        (e.enumItems.getD j dummyItem) CmpOp.gt = .result (decide (j < i))) ∧
    ((e.enumItems.getD i dummyItem).compareWith
        (e.enumItems.getD j dummyItem) CmpOp.ge = .result (decide (j ≤ i))) ∧
    ((decide (i < j)).toNat + (decide (i = j)).toNat + (decide (j < i)).toNat
        = 1) := by
  have hmi := make_member pairs e h i hi
  have hmj := make_member pairs e h j hj
  rw [hmi, hmj]
  have hne : ¬ (e.iter ≠ e.iter) := fun hc => hc rfl
  simp only [EnumItem.compareWith, if_neg hne, CmpOp.apply]
  refine ⟨trivial, trivial, trivial, trivial, trivial, trivial, ?_⟩
  rcases Nat.lt_trichotomy i j with ht | ht | ht
  · rw [decide_eq_true ht, decide_eq_false (Nat.ne_of_lt ht),
      decide_eq_false (Nat.lt_asymm ht)]
    rfl
  · subst ht
    rw [decide_eq_false (Nat.lt_irrefl i), decide_eq_true rfl]
    rfl
  · rw [decide_eq_false (Nat.lt_asymm ht), decide_eq_true ht,
      decide_eq_false (Ne.symm (Nat.ne_of_lt ht))]
    rfl

/-- Witness for C2 at the ages-of-man enumeration: the first two members
(`baby` at position 0 and `toddler` at position 1). -/
theorem C2_same_enum_ordering_witness :
    Enum.make agesPairs = .ok agesEnum ∧
    0 < agesEnum.enumItems.length ∧ 1 < agesEnum.enumItems.length ∧
    (agesEnum.enumItems.getD 0 dummyItem).compareWith
      (agesEnum.enumItems.getD 1 dummyItem) CmpOp.lt = .result (decide (0 < 1)) := by
  refine ⟨by decide, by decide, by decide, ?_⟩
  exact (C2_same_enum_ordering agesPairs agesEnum (by decide) 0 1
    (by decide) (by decide)).1

/-- C3: looking a member up by its own value returns that member, and
looking up a value no member has raises the error that carries the
offending value. -/
theorem C3_get_item_by_value (pairs : List (PyVal × PyVal)) (e : Enum)
    (h : Enum.make pairs = .ok e) (m : EnumItem) (hm : m ∈ e.enumItems)
    (v : String) (hv : e.containsValue v = false) :
    e.get_item_by_value m.item_value = .ok m ∧
    e.get_item_by_value v = .error (.nonExistingEnumItemError v) := by
  constructor
  · have hmem : m.item_value ∈ e.iter := List.mem_map.mpr ⟨m, hm, rfl⟩
    have hcv : e.containsValue m.item_value = true := decide_eq_true hmem
    simp only [Enum.get_item_by_value, hcv, if_true,
      lookup_item_by_value pairs e h m hm]
  · simp only [Enum.get_item_by_value, hv]
    rfl

/-- Witness for C3: the first member of the ages-of-man enumeration and
the absent value sheep. -/
theorem C3_get_item_by_value_witness :
    Enum.make agesPairs = .ok agesEnum ∧
    agesEnum.enumItems.getD 0 dummyItem ∈ agesEnum.enumItems ∧
    agesEnum.containsValue "sheep" = false ∧
    agesEnum.get_item_by_value (agesEnum.enumItems.getD 0 dummyItem).item_value =
      .ok (agesEnum.enumItems.getD 0 dummyItem) ∧
    agesEnum.get_item_by_value "sheep" =
      .error (.nonExistingEnumItemError "sheep") := by
  refine ⟨by decide, by decide, by decide, ?_, ?_⟩
  · exact (C3_get_item_by_value agesPairs agesEnum (by decide)
      (agesEnum.enumItems.getD 0 dummyItem) (by decide) "sheep" (by decide)).1
  · exact (C3_get_item_by_value agesPairs agesEnum (by decide)
      (agesEnum.enumItems.getD 0 dummyItem) (by decide) "sheep" (by decide)).2

/-- C5: for the member at declaration position `i`, the previous and
subsequent value properties are exactly the corresponding prefixes and
suffixes of the full value sequence; the first member has no previous
values and the last member has no subsequent values. -/
theorem C5_previous_subsequent (pairs : List (PyVal × PyVal)) (e : Enum)
    (h : Enum.make pairs = .ok e) (i : Nat) (hi : i < e.enumItems.length) :
    (e.enumItems.getD i dummyItem).previous_values = e.iter.take i ∧
    (e.enumItems.getD i dummyItem).previous_values_with_self
      = e.iter.take (i + 1) ∧
    (e.enumItems.getD i dummyItem).subsequent_values = e.iter.drop (i + 1) ∧
    (e.enumItems.getD i dummyItem).subsequent_values_with_self
      = e.iter.drop i ∧
    (e.enumItems.getD 0 dummyItem).previous_values = [] ∧
    (e.enumItems.getD (e.enumItems.length - 1) dummyItem).subsequent_values
      = [] := by
  have h0 : 0 < e.enumItems.length := Nat.lt_of_le_of_lt (Nat.zero_le i) hi
  have hm := make_member pairs e h i hi
  have hm0 := make_member pairs e h 0 h0
  have hlast := make_member pairs e h (e.enumItems.length - 1)
    (by omega)
  have hlen : e.iter.length = e.enumItems.length := by
    rw [make_iter_length pairs e h, make_enumItems_length pairs e h]
  rw [hm, hm0, hlast]
  simp only [EnumItem.previous_values, EnumItem.previous_values_with_self,
    EnumItem.subsequent_values, EnumItem.subsequent_values_with_self]
  refine ⟨trivial, trivial, trivial, trivial, by simp, ?_⟩
  have hsum : e.enumItems.length - 1 + 1 = e.enumItems.length := by omega
  rw [hsum, ← hlen]
  exact List.drop_length _

/-- Witness for C5 at the ages-of-man enumeration, member 1 (toddler). -/
theorem C5_previous_subsequent_witness :
    Enum.make agesPairs = .ok agesEnum ∧
    1 < agesEnum.enumItems.length ∧
    (agesEnum.enumItems.getD 1 dummyItem).previous_values
      = agesEnum.iter.take 1 := by
  refine ⟨by decide, by decide, ?_⟩
  exact (C5_previous_subsequent agesPairs agesEnum (by decide) 1 (by decide)).1

/-- C7: attribute access on a constructed enumeration returns the member
bound to each declared label, raises an attribute error for an undeclared
name, rejects assignment to a declared label, and accepts assignment to
any other name. -/
theorem C7_attribute_access (pairs : List (PyVal × PyVal)) (e : Enum)
    (h : Enum.make pairs = .ok e) (l : String) (m : EnumItem)
    (hm : (l, m) ∈ e.items) (n : String)
    (hn : decide (n ∈ e.labels) = false) :
    e.getattr l = .ok m ∧
    e.getattr n = .error (.attributeError n) ∧
    e.setattrCheck l =
      .error (.assertionError "Enum items cannot be overridden") ∧
    e.setattrCheck n = .ok () := by
  have hnd : (e.items.map Prod.fst).Nodup := make_labels_nodup pairs e h
  have hnl : n ∉ e.labels := of_decide_eq_false hn
  have hll : l ∈ e.labels := List.mem_map.mpr ⟨(l, m), hm, rfl⟩
  refine ⟨?_, ?_, ?_, ?_⟩
  · simp only [Enum.getattr, lookup_of_mem e.items l m hm hnd]
  · simp only [Enum.getattr, lookup_eq_none_of e.items n hnl]
  · rw [Enum.setattrCheck, if_pos hll]
  · rw [Enum.setattrCheck, if_neg hnl]

/-- Witness for C7: the label BABY bound to the first member, and the
undeclared name COW. -/
theorem C7_attribute_access_witness :
    Enum.make agesPairs = .ok agesEnum ∧
    ("BABY", agesEnum.enumItems.getD 0 dummyItem) ∈ agesEnum.items ∧
    decide ("COW" ∈ agesEnum.labels) = false ∧
    agesEnum.getattr "BABY" = .ok (agesEnum.enumItems.getD 0 dummyItem) ∧
    agesEnum.getattr "COW" = .error (.attributeError "COW") := by
  refine ⟨by decide, by decide, by decide, ?_, ?_⟩
  · exact (C7_attribute_access agesPairs agesEnum (by decide) "BABY"
      (agesEnum.enumItems.getD 0 dummyItem) (by decide) "COW" (by decide)).1
  · exact (C7_attribute_access agesPairs agesEnum (by decide) "BABY"
      (agesEnum.enumItems.getD 0 dummyItem) (by decide) "COW" (by decide)).2.1

/-- C8: the size of a validly constructed enumeration is the number of
declared pairs, and iteration yields exactly the declared value strings in
declaration order. -/
theorem C8_size_and_iteration (pairs : List (PyVal × PyVal)) (e : Enum)
    (h : Enum.make pairs = .ok e) :
    e.size = pairs.length ∧ pairs.map Prod.fst = e.iter.map PyVal.str := by
  refine ⟨make_size pairs e h, ?_⟩
  obtain ⟨-, hstr, -, -, -, -⟩ := make_ok_inv pairs e h
  rw [make_iter pairs e h, List.map_map]
  have he : ∀ v ∈ pairs.map Prod.fst, (PyVal.str ∘ asStr) v = id v := by
    intro v hv
    have hs := values_str pairs hstr v hv
    cases v with
    | str s => rfl
    | obj t => simp [pyIsStr] at hs
  exact ((List.map_congr_left he).trans (List.map_id _)).symm

/-- Witness for C8 at the ages-of-man enumeration. -/
theorem C8_size_and_iteration_witness :
    Enum.make agesPairs = .ok agesEnum ∧
    agesEnum.size = agesPairs.length ∧
    agesPairs.map Prod.fst = agesEnum.iter.map PyVal.str := by
  refine ⟨by decide, ?_, ?_⟩
  · exact (C8_size_and_iteration agesPairs agesEnum (by decide)).1
  · exact (C8_size_and_iteration agesPairs agesEnum (by decide)).2

/-- C9: converting a member of the enumeration the field was built for to
its stored string and converting that string back yields the very same
member; a null stored value passes through unchanged in both directions. -/
theorem C9_round_trip (pairs : List (PyVal × PyVal)) (e : Enum)
    (h : Enum.make pairs = .ok e) (m : EnumItem) (hm : m ∈ e.enumItems) :
    (EnumField.make e).from_db_value
      (EnumField.get_prep_value (.itemVal m)) = .ok (.itemVal m) ∧
    EnumField.get_prep_value .nullVal = .nullVal ∧
    (EnumField.make e).from_db_value .nullVal = .ok .nullVal := by
  refine ⟨?_, rfl, rfl⟩
  have hl : (EnumField.make e).enum_items_by_values.lookup m.item_value
      = some m := by
    show e.get_items_by_values.lookup m.item_value = some m
    exact lookup_item_by_value pairs e h m hm
  simp only [EnumField.from_db_value, EnumField.get_prep_value,
    EnumField.to_python, hl]

/-- Witness for C9: the first member of the ages-of-man enumeration. -/
theorem C9_round_trip_witness :
    Enum.make agesPairs = .ok agesEnum ∧
    agesEnum.enumItems.getD 0 dummyItem ∈ agesEnum.enumItems ∧
    (EnumField.make agesEnum).from_db_value
      (EnumField.get_prep_value (.itemVal (agesEnum.enumItems.getD 0 dummyItem)))
      = .ok (.itemVal (agesEnum.enumItems.getD 0 dummyItem)) ∧
    (EnumField.make agesEnum).from_db_value .nullVal = .ok .nullVal := by
  refine ⟨by decide, by decide, ?_, ?_⟩
  · exact (C9_round_trip agesPairs agesEnum (by decide)
      (agesEnum.enumItems.getD 0 dummyItem) (by decide)).1
  · exact (C9_round_trip agesPairs agesEnum (by decide)
      (agesEnum.enumItems.getD 0 dummyItem) (by decide)).2.2

theorem py_eq_symm (a b : EnumItem) : a.py_eq b = b.py_eq a := by
  simp only [EnumItem.py_eq, EnumItem.compareWith]
  by_cases h : a.enum_values = b.enum_values
  · rw [if_neg (fun hc => hc h), if_neg (fun hc => hc h.symm)]
    simp only [CmpOp.apply]
    rw [decide_eq_decide]
    exact eq_comm
  · rw [if_pos h, if_pos (fun hc => h hc.symm)]

theorem pySetEq_true (xs ks : List EnumItem)
    (h1 : ∀ a ∈ xs, ∃ b ∈ ks, a.py_eq b = true)
    (h2 : ∀ b ∈ ks, ∃ a ∈ xs, a.py_eq b = true) :
    pySetEq xs ks = true := by
  simp only [pySetEq, Bool.and_eq_true, List.all_eq_true, List.any_eq_true]
  constructor
  · intro a ha
    obtain ⟨b, hb, hpe⟩ := h1 a ha
    exact ⟨b, hb, hpe⟩
  · intro b hb
    obtain ⟨a, ha, hpe⟩ := h2 b hb
    exact ⟨a, ha, hpe⟩

theorem pySetEq_false (xs ks : List EnumItem)
    (h : (∃ a ∈ xs, ∀ b ∈ ks, a.py_eq b = false) ∨
         (∃ b ∈ ks, ∀ a ∈ xs, a.py_eq b = false)) :
    pySetEq xs ks = false := by
  cases hq : pySetEq xs ks with
  | false => rfl
  | true =>
    exfalso
    simp only [pySetEq, Bool.and_eq_true, List.all_eq_true,
      List.any_eq_true] at hq
    rcases h with ⟨a, ha, hall⟩ | ⟨b, hb, hall⟩
    · obtain ⟨b, hb, hpe⟩ := hq.1 a ha
      rw [hall b hb] at hpe
      cases hpe
    · obtain ⟨a, ha, hpe⟩ := hq.2 b hb
      rw [hall a ha] at hpe
      cases hpe

theorem pyDictGet_covered (it : EnumItem) (m : List (EnumItem × String))
    (h : ∃ p ∈ m, it.py_eq p.1 = true) :
    ∃ l, pyDictGet it m = some l := by
  obtain ⟨p, hp, hpe⟩ := h
  have hs : (m.find? (fun q => q.1.py_eq it)).isSome := by
    apply List.find?_isSome.mpr
    exact ⟨p, hp, by rw [py_eq_symm]; exact hpe⟩
  cases hf : m.find? (fun q => q.1.py_eq it) with
  | none => rw [hf] at hs; cases hs
  | some q => exact ⟨q.2, by simp [pyDictGet, hf]⟩

/-- C4: `set_ui_labels` succeeds exactly on a mapping whose key set covers
every member and contains no key outside the members: with an exactly
covering mapping it succeeds, marks the enum as having UI labels and
assigns each member its label from the mapping; with a mapping that omits
some member or contains a non-member key it fails with the validation
error. -/
theorem C4_set_ui_labels (e : Enum) (g b : List (EnumItem × String))
    (hg1 : ∀ it ∈ e.enumItems, ∃ p ∈ g, it.py_eq p.1 = true)
    (hg2 : ∀ p ∈ g, ∃ it ∈ e.enumItems, it.py_eq p.1 = true)
    (hb : (∃ it ∈ e.enumItems, ∀ p ∈ b, it.py_eq p.1 = false) ∨
          (∃ p ∈ b, ∀ it ∈ e.enumItems, it.py_eq p.1 = false))
    (i : Nat) (hi : i < e.items.length) :
    (e.set_ui_labels g).1 = .ok () ∧
    (e.set_ui_labels g).2.has_ui_labels = true ∧
    ((e.set_ui_labels g).2.enumItems.getD i dummyItem).item_ui_label =
      pyDictGet (e.enumItems.getD i dummyItem) g ∧
    (e.set_ui_labels b).1 =
      .error (.assertionError "All the enum item values must have a UI label.") := by
  have hset : pySetEq e.enumItems (g.map Prod.fst) = true := by
    refine pySetEq_true _ _ ?_ ?_
    · intro a ha
      obtain ⟨p, hp, hpe⟩ := hg1 a ha
      exact ⟨p.1, List.mem_map_of_mem Prod.fst hp, hpe⟩
    · intro k hk
      obtain ⟨p, hp, hkp⟩ := List.mem_map.mp hk
      obtain ⟨a, ha, hpe⟩ := hg2 p hp
      exact ⟨a, ha, by rw [hkp] at hpe; exact hpe⟩
  have hbset : pySetEq e.enumItems (b.map Prod.fst) = false := by
    refine pySetEq_false _ _ ?_
    rcases hb with ⟨it, hit, hall⟩ | ⟨p, hp, hall⟩
    · left
      refine ⟨it, hit, ?_⟩
      intro k hk
      obtain ⟨q, hq, hkq⟩ := List.mem_map.mp hk
      rw [← hkq]
      exact hall q hq
    · right
      exact ⟨p.1, List.mem_map_of_mem Prod.fst hp, fun a ha => hall a ha⟩
  refine ⟨?_, ?_, ?_, ?_⟩
  · rw [Enum.set_ui_labels, if_pos hset]
  · rw [Enum.set_ui_labels, if_pos hset]
  · rw [Enum.set_ui_labels, if_pos hset]
    have hmem : (e.items.getD i ("", dummyItem)).2 ∈ e.enumItems := by
      rw [getD_at e.items ("", dummyItem) i hi]
      exact List.mem_map_of_mem Prod.snd (List.getElem_mem hi)
    have hitem : e.enumItems.getD i dummyItem
        = (e.items.getD i ("", dummyItem)).2 := by
      have hi2 : i < e.enumItems.length := by
        simpa [Enum.enumItems] using hi
      rw [getD_at e.enumItems dummyItem i hi2,
        getD_at e.items ("", dummyItem) i hi]
      simp [Enum.enumItems]
    obtain ⟨l, hl⟩ := pyDictGet_covered (e.items.getD i ("", dummyItem)).2 g
      (hg1 _ hmem)
    have hil : i < (e.items.map (fun p =>
        (p.1, match pyDictGet p.2 g with
              | some l => p.2.set_ui_label l
              | none => p.2))).length := by
      simpa using hi
    have hi3 : i < (Enum.enumItems
        { items := e.items.map (fun p =>
            (p.1, match pyDictGet p.2 g with
                  | some l => p.2.set_ui_label l
                  | none => p.2)),
          has_ui_labels := true }).length := by
      simpa [Enum.enumItems] using hi
    rw [hitem, hl]
    rw [getD_at _ dummyItem i hi3]
    simp only [Enum.enumItems, List.getElem_map]
    rw [getD_at e.items ("", dummyItem) i hi] at hl
    rw [hl]
    simp [EnumItem.set_ui_label]
  · rw [Enum.set_ui_labels, if_neg (by rw [hbset]; exact Bool.false_ne_true)]

/-- Witness for C4: a full mapping over the six members of the ages
enumeration succeeds and assigns the labels; the one-entry mapping over
the same six-member enumeration fails. -/
theorem C4_set_ui_labels_witness :
    (agesEnum.set_ui_labels agesUiFull).1 = .ok () ∧
    (agesEnum.set_ui_labels agesUiFull).2.has_ui_labels = true ∧
    ((agesEnum.set_ui_labels agesUiFull).2.enumItems.getD 0
      dummyItem).item_ui_label =
      pyDictGet (agesEnum.enumItems.getD 0 dummyItem) agesUiFull ∧
    (agesEnum.set_ui_labels agesUiOne).1 =
      .error (.assertionError "All the enum item values must have a UI label.") := by
  refine ⟨?_, ?_, ?_, ?_⟩
  · exact (C4_set_ui_labels agesEnum agesUiFull agesUiOne (by decide)
      (by decide) (by decide) 0 (by decide)).1
  · exact (C4_set_ui_labels agesEnum agesUiFull agesUiOne (by decide)
      (by decide) (by decide) 0 (by decide)).2.1
  · exact (C4_set_ui_labels agesEnum agesUiFull agesUiOne (by decide)
      (by decide) (by decide) 0 (by decide)).2.2.1
  · exact (C4_set_ui_labels agesEnum agesUiFull agesUiOne (by decide)
      (by decide) (by decide) 0 (by decide)).2.2.2

/-- C10: when `set_ui_labels` fails, the enumeration is unchanged: no
member label has been assigned and the has-UI-labels flag is untouched,
because the coverage assert runs before the assignment loop. -/
theorem C10_failure_atomic (e : Enum) (ui : List (EnumItem × String))
    (err : EnumError) (h : (e.set_ui_labels ui).1 = .error err) :
    (e.set_ui_labels ui).2 = e := by
  by_cases hq : pySetEq e.enumItems (ui.map Prod.fst) = true
  · rw [Enum.set_ui_labels, if_pos hq] at h
    cases h
  · rw [Enum.set_ui_labels, if_neg hq]

/-- Witness for C10: the one-entry mapping rejected by the six-member ages
enumeration leaves the enumeration unchanged. -/
theorem C10_failure_atomic_witness :
    (agesEnum.set_ui_labels agesUiOne).1 =
      .error (.assertionError "All the enum item values must have a UI label.") ∧
    (agesEnum.set_ui_labels agesUiOne).2 = agesEnum := by
  refine ⟨by decide, ?_⟩
  exact C10_failure_atomic agesEnum agesUiOne
    (.assertionError "All the enum item values must have a UI label.")
    (by decide)

/-- C6 counterexample: two declarations with all-string, pairwise unique
values and labels on which construction nevertheless fails.  The empty
declaration fails because unpacking `zip(*items)` raises a `ValueError`;
the declaration whose label is the string `has_ui_labels` fails because
the final assignment `self.has_ui_labels = False` of `__init__` passes
through the class's own `__setattr__`, whose assert rejects names that are
keys of `_items`. -/
theorem C6_construction_counterexample :
    Enum.make [] = .error (.valueError "not enough values to unpack") ∧
    Enum.make [(.str "x", .str "has_ui_labels")] =
      .error (.assertionError "Enum items cannot be overridden") := by
  exact ⟨by decide, by decide⟩

/-- C6 (amended): construction fails whenever the declaration is empty,
some value or label is not a string, the values are not pairwise distinct,
the labels are not pairwise distinct, or some label is the reserved
attribute name `has_ui_labels`; a nonempty declaration whose values and
labels are all strings, with pairwise distinct values, pairwise distinct
labels and no label equal to `has_ui_labels`, succeeds. -/
theorem C6_construction_validation (good bad : List (PyVal × PyVal))
    (hne : good ≠ [])
    (hstr : ∀ p ∈ good, pyIsStr p.1 = true ∧ pyIsStr p.2 = true)
    (hv : (good.map Prod.fst).Nodup) (hl : (good.map Prod.snd).Nodup)
    (hres : "has_ui_labels" ∉ (good.map Prod.snd).map asStr)
    (hbad : bad = [] ∨
      (∃ p ∈ bad, pyIsStr p.1 = false ∨ pyIsStr p.2 = false) ∨
      ¬ (bad.map Prod.fst).Nodup ∨ ¬ (bad.map Prod.snd).Nodup ∨
      "has_ui_labels" ∈ (bad.map Prod.snd).map asStr) :
    exceptOk (Enum.make good) = true ∧ exceptOk (Enum.make bad) = false := by
  constructor
  · rw [make_ok_of good hne hstr hv hl hres]
    rfl
  · cases hm : Enum.make bad with
    | error err => rfl
    | ok e =>
      exfalso
      obtain ⟨hbne, hbstr, hbv, hbl, hbres, -⟩ := make_ok_inv bad e hm
      rcases hbad with hb | hb | hb | hb | hb
      · exact hbne hb
      · obtain ⟨p, hp, hcase⟩ := hb
        rcases hcase with hc | hc
        · rw [(hbstr p hp).1] at hc
          cases hc
        · rw [(hbstr p hp).2] at hc
          cases hc
      · exact hb hbv
      · exact hb hbl
      · exact hbres hb

/-- Witness for C6 (amended): the ages declaration succeeds; the
duplicate-label declaration from the tests fails. -/
theorem C6_construction_validation_witness :
    exceptOk (Enum.make agesPairs) = true ∧
    exceptOk (Enum.make [(.str "1", .str "One"), (.str "1.0", .str "One")])
      = false := by
  refine ⟨?_, ?_⟩
  · exact (C6_construction_validation agesPairs
      [(.str "1", .str "One"), (.str "1.0", .str "One")]
      (by decide) (by decide) (by decide) (by decide) (by decide) (by decide)).1
  · exact (C6_construction_validation agesPairs
      [(.str "1", .str "One"), (.str "1.0", .str "One")]
      (by decide) (by decide) (by decide) (by decide) (by decide) (by decide)).2
